import Mathlib

/-!
Verification of the in-memory tabular data store in `database.py`
(`Field`, `Row`, `Table`, `Database`).

The embedding is a direct shallow translation of the source:
  * Python runtime values (`str`, `int`, `float`, `bool`) become the
    inductive `Value`; declared type tags become `DType`.
  * `isinstance` becomes `pyIsInstance`; in Python `bool` is a subclass
    of `int`, so `isinstance(True, int)` is `True`, which the translation
    reproduces.
  * Methods that mutate `self` are translated in state-passing style:
    they return the result together with the post-state of the mutated
    object.  A `raise` site returns the error together with the state of
    the object at the moment of the raise.
  * Python `kwargs` becomes a list of name/value pairs; Python guarantees
    the names are pairwise distinct, which theorems take as a hypothesis
    where it matters.
  * Python `dict` (used for `Database._tables`) becomes an association
    list with insert-or-overwrite-in-place semantics (`dictInsert`) and
    first-match lookup (`dictLookup`).
  * The exceptions `ValueError` (spec name: SchemaMismatch) raised by
    `add_row` and `TableNotFoundError` raised by `Database.get` become
    the inductives `AddRowError` and `GetError`; the three distinct
    `ValueError` messages of `add_row` become the three constructors of
    `AddRowError`.
The dead `_related_tables` attribute of `Table` is declared in the source
but never read or written; the spec marks it as dead state and it is
omitted here.
-/

namespace DB

/-- A Python runtime value of one of the four supported kinds.
Float payloads are never inspected by the source, so they are carried
as an abstract bit pattern. -/
inductive Value where
  | str (s : String)
  | int (n : Int)
  | float (bits : Nat)
  | bool (b : Bool)
deriving DecidableEq, Repr

/-- A declared column type tag (`data_type` of a `Field`). -/
inductive DType where
  | str
  | int
  | float
  | bool
deriving DecidableEq, Repr

/-- Python `isinstance(v, t)` for the supported values and type tags.
In CPython `bool` is a subclass of `int`, so a boolean value is an
instance of `int` as well as of `bool`. -/
def pyIsInstance : Value → DType → Bool
  | .str _, .str => true
  | .int _, .int => true
  | .bool _, .int => true
  | .bool _, .bool => true
  | .float _, .float => true
  | _, _ => false

/-- Source class `Field`: a schema column descriptor (`database.py`, class `Field`). -/
structure Field where
  name : String
  data_type : DType
deriving DecidableEq, Repr

/-- Source class `Row`: a mapping from field name to value, kept in insertion order
(`database.py`, class `Row`; its `__init__` copies the kwargs in order). -/
structure Row where
  fields : List (String × Value)
deriving DecidableEq, Repr

/-- The three `ValueError` conditions of `Table.add_row` (the spec's
SchemaMismatch): count mismatch, unknown field name, type mismatch. -/
inductive AddRowError where
  | countMismatch
  | unknownField (fieldName : String)
  | typeMismatch (fieldName : String)
deriving DecidableEq, Repr

/-- Source exception `TableNotFoundError` raised by `Database.get`; it carries the
requested table name. -/
inductive GetError where
  | tableNotFound (tableName : String)
deriving DecidableEq, Repr

/-- Source class `Table`: name, ordered schema (`_fields`) and ordered data (`_rows`).
The dead `_related_tables` attribute is omitted (never read or written). -/
structure Table where
  name : String
  _fields : List Field
  _rows : List Row
deriving DecidableEq, Repr

/-- Source method `Table.add_field`: appends one `Field` descriptor to the schema
(no duplicate-name check, exactly as in the source). -/
def Table.add_field (t : Table) (field_name : String) (data_type : DType) : Table :=
  { t with _fields := t._fields ++ [Field.mk field_name data_type] }

/-- Source method `Table.add_fields`: adds multiple fields in mapping-iteration order. -/
def Table.add_fields (t : Table) (fields_dict : List (String × DType)) : Table :=
  fields_dict.foldl (fun acc p => acc.add_field p.1 p.2) t

/-- The lookup
`next((field.data_type for field in self._fields if field.name == field_name), None)`
inside `Table.add_row`: the declared type of the FIRST field whose name
matches, or `none`. -/
def lookupDataType (fields : List Field) (field_name : String) : Option DType :=
  match fields with
  | [] => none
  | f :: rest => if f.name = field_name then some f.data_type else lookupDataType rest field_name

/-- The per-name validation loop of `Table.add_row`: for each supplied
name, the first matching field must exist and the supplied value must be
an instance of its declared type. -/
def validateKwargs (fields : List Field) : List (String × Value) → Except AddRowError Unit
  | [] => .ok ()
  | (field_name, field_value) :: rest =>
    match lookupDataType fields field_name with
    | none => .error (.unknownField field_name)
    | some expected_data_type =>
      if pyIsInstance field_value expected_data_type then validateKwargs fields rest
      else .error (.typeMismatch field_name)

/-- Source method `Table.add_row`: count check, then per-name validation, then append.
Returns the outcome together with the post-state of the table; every
`raise` happens before the append, so an error is paired with the
unchanged table. -/
def Table.add_row (t : Table) (kwargs : List (String × Value)) :
    Except AddRowError Unit × Table :=
  if kwargs.length ≠ t._fields.length then (.error .countMismatch, t)
  else
    match validateKwargs t._fields kwargs with
    | .error e => (.error e, t)
    | .ok () => (.ok (), { t with _rows := t._rows ++ [Row.mk kwargs] })

/-- The scan loop of `Table.find`: first row satisfying the condition,
else `none`. -/
def findAux (condition : Row → Bool) : List Row → Option Row
  | [] => none
  | row :: rest => if condition row then some row else findAux condition rest

/-- Source method `Table.find`: scans `_rows` in insertion order and returns the first
match, or `None` (here `none`) if the scan exhausts. -/
def Table.find (t : Table) (condition : Row → Bool) : Option Row :=
  findAux condition t._rows

/-- The scan loop of `Table.findMany`, with the accumulator `rowsFound`
made explicit: on each match the row is appended and the loop returns
early exactly when `len(rowsFound) == amount`. -/
def findManyAux (condition : Row → Bool) (amount : Int) (rowsFound : List Row) :
    List Row → List Row
  | [] => rowsFound
  | row :: rest =>
    if condition row then
      if ((rowsFound ++ [row]).length : Int) = amount then rowsFound ++ [row]
      else findManyAux condition amount (rowsFound ++ [row]) rest
    else findManyAux condition amount rowsFound rest

/-- Source method `Table.findMany`: collects matching rows in insertion order with the
early-exit check `len(rowsFound) == amount` (the Python default for
`amount` is `0`). -/
def Table.findMany (t : Table) (condition : Row → Bool) (amount : Int) : List Row :=
  findManyAux condition amount [] t._rows

/-- State-passing form of `Table.find`: the method body contains no
write to `self`, so the post-state is the receiver itself. -/
def Table.findS (t : Table) (condition : Row → Bool) : Option Row × Table :=
  (t.find condition, t)

/-- State-passing form of `Table.findMany`: the method body contains no
write to `self`, so the post-state is the receiver itself. -/
def Table.findManyS (t : Table) (condition : Row → Bool) (amount : Int) :
    List Row × Table :=
  (t.findMany condition amount, t)

/-- Read view `Table.fields`: the ordered schema field names only. -/
def Table.fields (t : Table) : List String :=
  t._fields.map Field.name

/-- Read view `Table.rows`: the ordered value mappings of the rows. -/
def Table.rows (t : Table) : List (List (String × Value)) :=
  t._rows.map Row.fields

/-- Python dict assignment `d[k] = v`: overwrite in place when the key
exists, else append at the end. -/
def dictInsert (k : String) (v : Table) : List (String × Table) → List (String × Table)
  | [] => [(k, v)]
  | (k2, v2) :: rest => if k2 = k then (k, v) :: rest else (k2, v2) :: dictInsert k v rest

/-- Python dict lookup `d[k]` / `k in d`: first (unique) matching key. -/
def dictLookup (k : String) : List (String × Table) → Option Table
  | [] => none
  | (k2, v2) :: rest => if k2 = k then some v2 else dictLookup k rest

/-- Source class `Database`: a mapping from table name to `Table` (`_tables`). -/
structure Database where
  _tables : List (String × Table)
deriving DecidableEq, Repr

/-- Source method `Database.create`: constructs a new empty table, stores it under
`table_name` (silently overwriting any existing entry) and returns it
together with the post-state of the database. -/
def Database.create (db : Database) (table_name : String) : Table × Database :=
  (Table.mk table_name [] [], Database.mk (dictInsert table_name (Table.mk table_name [] []) db._tables))

/-- Source method `Database.get`: the stored table when the key exists, otherwise a
`TableNotFoundError` carrying the requested name. -/
def Database.get (db : Database) (table_name : String) : Except GetError Table :=
  match dictLookup table_name db._tables with
  | some t => .ok t
  | none => .error (.tableNotFound table_name)

/-! Concrete example values, used by witnesses and counterexamples. -/

/-- A table with two schema fields that share the name `a` (the source
performs no duplicate-name check, so this state is reachable via two
`add_field` calls). -/
def tableDupA : Table :=
  Table.mk "t" [Field.mk "a" DType.int, Field.mk "a" DType.str] []

/-- Supplied values for the single name `a`, with an integer value. -/
def kwargsA1 : List (String × Value) :=
  [("a", Value.int 1)]

/-- A one-integer-field table named `users` with field `age`. -/
def tableUsers : Table :=
  Table.mk "users" [Field.mk "age" DType.int] []

/-- A table with one integer field and two already-inserted rows. -/
def tableTwoRows : Table :=
  Table.mk "t" [Field.mk "a" DType.int]
    [Row.mk [("a", Value.int 1)], Row.mk [("a", Value.int 2)]]

/-- A predicate matching every row. -/
def condTrue : Row → Bool := fun _ => true

/-- The empty database. -/
def dbEmpty : Database := Database.mk []

/-- Two supplied values, both with names unknown to `tableUsers`. -/
def kwargsBad : List (String × Value) :=
  [("bogus", Value.int 1), ("x", Value.int 2)]

/-- Two supplied values for `tableDupA`: the right count, but the second
name is unknown to the schema. -/
def kwargsAB : List (String × Value) :=
  [("a", Value.int 1), ("b", Value.int 2)]

/-- The database obtained by creating table `users` in the empty database. -/
def dbUsers : Database := (dbEmpty.create "users").2

/-! ## Helper lemmas -/

/-- The first-match scan of `Table.find` returns the head of the filtered
row list. -/
theorem findAux_eq_head_filter (condition : Row → Bool) :
    ∀ rows : List Row, findAux condition rows = (rows.filter condition).head? := by
  intro rows
  induction rows with
  | nil => rfl
  | cons row rest ih =>
    by_cases hc : condition row
    · simp [findAux, hc, List.filter_cons_of_pos]
    · simp [findAux, hc, List.filter_cons_of_neg, ih]

/-- With a positive `amount`, the `findMany` loop collects the matches of
the remaining rows up to the remaining capacity of the accumulator. -/
theorem findManyAux_pos (condition : Row → Bool) (j : Nat) :
    ∀ (rows acc : List Row), acc.length < j →
      findManyAux condition (j : Int) acc rows =
        acc ++ (rows.filter condition).take (j - acc.length) := by
  intro rows
  induction rows with
  | nil => intro acc hacc; simp [findManyAux]
  | cons row rest ih =>
    intro acc hacc
    by_cases hc : condition row
    · by_cases hj : acc.length + 1 = j
      · have hcond : (((acc ++ [row]).length : Nat) : Int) = (j : Int) := by
          simp [List.length_append]; omega
        have h1 : j - acc.length = 1 := by omega
        simp [findManyAux, hc, hcond, List.filter_cons_of_pos, h1]
        intro hcon
        exfalso
        omega
      · have hcond : ¬ ((((acc ++ [row]).length : Nat) : Int) = (j : Int)) := by
          simp [List.length_append]; omega
        have hlt : (acc ++ [row]).length < j := by
          simp [List.length_append]; omega
        have hrec := ih (acc ++ [row]) hlt
        have hsub : j - acc.length = (j - (acc ++ [row]).length) + 1 := by
          simp [List.length_append]; omega
        simp only [findManyAux, hc, if_true, hcond, if_false, hrec,
          List.filter_cons_of_pos hc, hsub, List.take_succ_cons, List.append_assoc,
          List.singleton_append, if_neg]
    · have hrec := ih acc hacc
      simp [findManyAux, hc, List.filter_cons_of_neg, hrec]

/-- With `amount ≤ 0`, the early-exit test `len(rowsFound) == amount`
can never fire (the length is at least 1 when tested), so the loop
collects every match. -/
theorem findManyAux_nonpos (condition : Row → Bool) (amount : Int) (h : amount ≤ 0) :
    ∀ (rows acc : List Row),
      findManyAux condition amount acc rows = acc ++ rows.filter condition := by
  intro rows
  induction rows with
  | nil => intro acc; simp [findManyAux]
  | cons row rest ih =>
    intro acc
    by_cases hc : condition row
    · have hcond : ¬ ((((acc ++ [row]).length : Nat) : Int) = amount) := by
        have h1 : 1 ≤ (acc ++ [row]).length := by simp
        omega
      simp [findManyAux, hc, hcond, List.filter_cons_of_pos, ih]
      intro hcon
      exfalso
      omega
    · simp [findManyAux, hc, List.filter_cons_of_neg, ih]

/-- Characterisation of the lookup failing: the name appears in no field. -/
theorem lookupDataType_eq_none_iff (fields : List Field) (n : String) :
    lookupDataType fields n = none ↔ n ∉ fields.map Field.name := by
  induction fields with
  | nil => simp [lookupDataType]
  | cons f rest ih =>
    by_cases hf : f.name = n
    · simp [lookupDataType, hf]
    · simp [lookupDataType, hf, ih, Ne.symm hf]

/-- The validation loop succeeds exactly when every supplied name resolves
to a field and the value is an instance of that field's declared type. -/
theorem validateKwargs_ok_iff (fields : List Field) :
    ∀ kwargs : List (String × Value),
      validateKwargs fields kwargs = .ok () ↔
        ∀ p ∈ kwargs, ∃ dt, lookupDataType fields p.1 = some dt ∧
          pyIsInstance p.2 dt = true := by
  intro kwargs
  induction kwargs with
  | nil => simp [validateKwargs]
  | cons p rest ih =>
    obtain ⟨n, v⟩ := p
    cases hl : lookupDataType fields n with
    | none => simp [validateKwargs, hl]
    | some dt =>
      by_cases hins : pyIsInstance v dt
      · simp [validateKwargs, hl, hins, ih]
      · simp [validateKwargs, hl, hins]

/-- Success of `add_row` decomposes into the count check and the
validation loop. -/
theorem add_row_ok_iff (t : Table) (kwargs : List (String × Value)) :
    (t.add_row kwargs).1 = .ok () ↔
      kwargs.length = t._fields.length ∧ validateKwargs t._fields kwargs = .ok () := by
  by_cases hlen : kwargs.length = t._fields.length
  · cases hv : validateKwargs t._fields kwargs with
    | error e => simp [Table.add_row, hlen, hv]
    | ok u => cases u; simp [Table.add_row, hlen, hv]
  · simp [Table.add_row, hlen]

/-- Inserting under a key and looking the same key up yields the new value. -/
theorem dictLookup_dictInsert_self (k : String) (v : Table) :
    ∀ d : List (String × Table), dictLookup k (dictInsert k v d) = some v := by
  intro d
  induction d with
  | nil => simp [dictInsert, dictLookup]
  | cons p rest ih =>
    obtain ⟨k2, v2⟩ := p
    by_cases hk : k2 = k
    · simp [dictInsert, hk, dictLookup]
    · simp [dictInsert, hk, dictLookup, ih]

/-- Inserting under one key leaves lookups of other keys unchanged. -/
theorem dictLookup_dictInsert_ne (k m : String) (v : Table) (h : m ≠ k) :
    ∀ d : List (String × Table), dictLookup m (dictInsert k v d) = dictLookup m d := by
  have h2 : ¬ k = m := fun he => h (Eq.symm he)
  intro d
  induction d with
  | nil => simp [dictInsert, dictLookup, h2]
  | cons p rest ih =>
    obtain ⟨k2, v2⟩ := p
    by_cases hk : k2 = k
    · subst hk
      simp [dictInsert, dictLookup, h2]
    · simp [dictInsert, hk, dictLookup, ih]

/-! ## Claim theorems -/

/-- C5: `Table.find` scans the rows in insertion order and returns the
first row for which the predicate is true; if no row satisfies the
predicate it returns the no-match sentinel `none` and (being a total
function) never raises an error. -/
theorem find_first_match_spec (t : Table) (condition : Row → Bool) :
    t.find condition = (t._rows.filter condition).head? ∧
    (t.find condition = none ↔ ∀ r ∈ t._rows, condition r = false) := by
  have h := findAux_eq_head_filter condition t._rows
  refine ⟨h, ?_⟩
  rw [Table.find, h]
  simp [List.head?_eq_none_iff, List.filter_eq_nil_iff]

/-- C9: `Table.find` and `Table.findMany` are read-only: the post-state
of the table after either call is the table itself (the loop bodies in
the source only read `self._rows`). -/
theorem find_findMany_read_only (t : Table) (condition : Row → Bool) (amount : Int) :
    (t.findS condition).2 = t ∧ (t.findManyS condition amount).2 = t :=
  ⟨rfl, rfl⟩

/-- C2: a call to `Table.add_row` that raises an error leaves the table
exactly as it was: every `raise` in the source happens before the single
mutation (`self._rows.append`). -/
theorem add_row_error_frame (t : Table) (kwargs : List (String × Value))
    (e : AddRowError) (h : (t.add_row kwargs).1 = .error e) :
    (t.add_row kwargs).2 = t := by
  by_cases hlen : kwargs.length = t._fields.length
  · cases hv : validateKwargs t._fields kwargs with
    | error e2 => simp [Table.add_row, hlen, hv]
    | ok u =>
      cases u
      simp [Table.add_row, hlen, hv] at h
  · simp [Table.add_row, hlen]

/-- Witness for C2: inserting an empty row into the one-field table
`tableUsers` errors, and the table is unchanged. -/
theorem add_row_error_frame_witness : (tableUsers.add_row []).2 = tableUsers :=
  add_row_error_frame tableUsers [] AddRowError.countMismatch rfl

/-- C4: with `amount` zero or negative, the early-exit test
`len(rowsFound) == amount` can never fire, so `findMany` scans the whole
table and returns exactly the matching rows in insertion order. -/
theorem findMany_nonpos_spec (t : Table) (condition : Row → Bool) (k : Int)
    (hk : k ≤ 0) : t.findMany condition k = t._rows.filter condition := by
  rw [Table.findMany, findManyAux_nonpos condition k hk t._rows []]
  simp

/-- Witness for C4: on a two-row table, `findMany` with limit `0`
returns every matching row. -/
theorem findMany_nonpos_spec_witness :
    tableTwoRows.findMany condTrue 0 = tableTwoRows._rows.filter condTrue :=
  findMany_nonpos_spec tableTwoRows condTrue 0 (by decide)

/-- C7: the argument-count check of `add_row` runs before any per-name
check: a count mismatch always yields the cardinality error, even when
some supplied name is unknown, and the per-name errors can only fire
when the counts are equal. -/
theorem add_row_count_check_first (t : Table) (kwargs : List (String × Value)) :
    (kwargs.length ≠ t._fields.length →
      (t.add_row kwargs).1 = .error .countMismatch) ∧
    (∀ n, ((t.add_row kwargs).1 = .error (.unknownField n) ∨
           (t.add_row kwargs).1 = .error (.typeMismatch n)) →
      kwargs.length = t._fields.length) := by
  constructor
  · intro hlen
    simp [Table.add_row, hlen]
  · intro n hor
    by_cases hlen : kwargs.length = t._fields.length
    · exact hlen
    · exfalso
      have hcount : (t.add_row kwargs).1 = .error .countMismatch := by
        simp [Table.add_row, hlen]
      cases hor with
      | inl h => rw [hcount] at h; exact AddRowError.noConfusion (Except.error.inj h)
      | inr h => rw [hcount] at h; exact AddRowError.noConfusion (Except.error.inj h)

/-- Witness for C7: two wrong-named values against a one-field schema hit
the cardinality error (not the unknown-field error); with the right
count, the unknown-field error for name `b` fires, so the counts were
equal. -/
theorem add_row_count_check_first_witness :
    (tableUsers.add_row kwargsBad).1 = .error .countMismatch ∧
    kwargsAB.length = tableDupA._fields.length :=
  ⟨(add_row_count_check_first tableUsers kwargsBad).1 (by decide),
   (add_row_count_check_first tableDupA kwargsAB).2 "b" (Or.inl rfl)⟩

/-- C10: the runtime type check of `add_row` treats a boolean as an
instance of `int` (Python's `bool` is a subclass of `int`), so a boolean
value passes validation for an integer-typed field; and a successful
`add_row` appends exactly the supplied values as the new row. -/
theorem add_row_bool_int (t : Table) (n : String) (b : Bool)
    (rest : List (String × Value))
    (h : lookupDataType t._fields n = some DType.int) :
    pyIsInstance (Value.bool b) DType.int = true ∧
    validateKwargs t._fields ((n, Value.bool b) :: rest) =
      validateKwargs t._fields rest ∧
    ∀ kwargs, (t.add_row kwargs).1 = Except.ok () →
      (t.add_row kwargs).2 = { t with _rows := t._rows ++ [Row.mk kwargs] } := by
  refine ⟨rfl, ?_, ?_⟩
  · simp [validateKwargs, h, pyIsInstance]
  · intro kwargs hok
    rw [add_row_ok_iff] at hok
    obtain ⟨hlen, hval⟩ := hok
    simp [Table.add_row, hlen, hval]

/-- Witness for C10: `add_row` on the integer-field table `users`
accepts `True` for `age` and stores the boolean unchanged. -/
theorem add_row_bool_int_witness :
    pyIsInstance (Value.bool true) DType.int = true ∧
    validateKwargs tableUsers._fields [("age", Value.bool true)] =
      validateKwargs tableUsers._fields [] ∧
    (tableUsers.add_row [("age", Value.bool true)]).2 =
      { tableUsers with _rows := tableUsers._rows ++ [Row.mk [("age", Value.bool true)]] } := by
  have h := add_row_bool_int tableUsers "age" true [] rfl
  exact ⟨h.1, h.2.1, h.2.2 [("age", Value.bool true)] rfl⟩

/-- C1 (amended): for a table whose declared schema field names are
pairwise distinct, `add_row` succeeds iff the set of supplied names
equals the set of schema field names and every supplied value is an
instance of its field's declared type; the distinct supplied names
reflect Python's guarantee on keyword arguments. -/
theorem add_row_ok_iff_nodup (t : Table) (kwargs : List (String × Value))
    (hk : (kwargs.map Prod.fst).Nodup) (hf : (t._fields.map Field.name).Nodup) :
    (t.add_row kwargs).1 = Except.ok () ↔
      ((kwargs.map Prod.fst).toFinset = (t._fields.map Field.name).toFinset ∧
       ∀ p ∈ kwargs, ∀ dt, lookupDataType t._fields p.1 = some dt →
         pyIsInstance p.2 dt = true) := by
  rw [add_row_ok_iff, validateKwargs_ok_iff]
  constructor
  · rintro ⟨hlen, hval⟩
    constructor
    · apply Finset.eq_of_subset_of_card_le
      · intro x hx
        rw [List.mem_toFinset] at hx ⊢
        rw [List.mem_map] at hx
        obtain ⟨p, hp, hpx⟩ := hx
        obtain ⟨dt, hdt, _⟩ := hval p hp
        have hne : ¬ lookupDataType t._fields p.1 = none := by simp [hdt]
        rw [lookupDataType_eq_none_iff] at hne
        rw [← hpx]
        exact not_not.mp hne
      · rw [List.toFinset_card_of_nodup hk, List.toFinset_card_of_nodup hf]
        simp [hlen]
    · intro p hp dt hdt
      obtain ⟨dt2, hdt2, hins⟩ := hval p hp
      rw [hdt] at hdt2
      cases hdt2
      exact hins
  · rintro ⟨hset, htype⟩
    have hlen : kwargs.length = t._fields.length := by
      have h1 := List.toFinset_card_of_nodup hk
      have h2 := List.toFinset_card_of_nodup hf
      rw [hset, h2] at h1
      simp at h1
      omega
    refine ⟨hlen, ?_⟩
    intro p hp
    have hmem : p.1 ∈ t._fields.map Field.name := by
      have hm : p.1 ∈ (kwargs.map Prod.fst).toFinset := by
        rw [List.mem_toFinset, List.mem_map]
        exact ⟨p, hp, rfl⟩
      rw [hset, List.mem_toFinset] at hm
      exact hm
    cases hdt : lookupDataType t._fields p.1 with
    | none =>
      rw [lookupDataType_eq_none_iff] at hdt
      exact absurd hmem hdt
    | some dt => exact ⟨dt, rfl, htype p hp dt hdt⟩

/-- Witness for C1 (amended): inserting `age = 30` into the one-field
table `users`, where both name sets are `{age}` and the value is an
integer, succeeds per the equivalence. -/
theorem add_row_ok_iff_nodup_witness :
    (tableUsers.add_row [("age", Value.int 30)]).1 = Except.ok () ↔
      (([("age", Value.int 30)].map Prod.fst).toFinset =
          (tableUsers._fields.map Field.name).toFinset ∧
       ∀ p ∈ [("age", Value.int 30)], ∀ dt,
         lookupDataType tableUsers._fields p.1 = some dt →
           pyIsInstance p.2 dt = true) :=
  add_row_ok_iff_nodup tableUsers [("age", Value.int 30)]
    (by simp) (by simp [tableUsers])

/-- Counterexample to C1 as stated: on the table `tableDupA`, whose
schema holds two fields both named `a`, the single supplied value
`a = 1` has exactly the schema's name set and its integer value is an
instance of the declared type its name resolves to, yet `add_row` does
not succeed — it raises the cardinality error, because the count check
compares against the number of field entries, not the number of
distinct names. -/
theorem add_row_ok_iff_counterexample :
    ((kwargsA1.map Prod.fst).toFinset = (tableDupA._fields.map Field.name).toFinset ∧
     ∀ p ∈ kwargsA1, ∀ dt, lookupDataType tableDupA._fields p.1 = some dt →
       pyIsInstance p.2 dt = true) ∧
    ¬ (tableDupA.add_row kwargsA1).1 = Except.ok () ∧
    (tableDupA.add_row kwargsA1).1 = Except.error AddRowError.countMismatch := by
  refine ⟨⟨?_, ?_⟩, ?_, ?_⟩
  · simp [kwargsA1, tableDupA]
  · intro p hp dt hdt
    simp [kwargsA1] at hp
    subst hp
    simp [tableDupA, lookupDataType] at hdt
    rw [← hdt]
    rfl
  · intro h
    simp [Table.add_row, tableDupA, kwargsA1] at h
  · rfl

/-- C3: with a positive limit `k`, `findMany` returns exactly the first
`k` matching rows in insertion order (all matches when fewer than `k`
exist), hence at most `k` rows; and the scan never goes past the `k`-th
match: once a prefix of the rows already contains `k` matches, the
result is unchanged under any predicate that agrees on that prefix, so
the rows after the `k`-th match are never evaluated. -/
theorem findMany_pos_spec (t : Table) (condition : Row → Bool) (k : Int)
    (hk : 1 ≤ k) :
    t.findMany condition k = (t._rows.filter condition).take k.toNat ∧
    (t.findMany condition k).length ≤ k.toNat ∧
    ∀ (p s : List Row) (condition2 : Row → Bool),
      t._rows = p ++ s →
      ((p.filter condition).length : Int) = k →
      (∀ r ∈ p, condition2 r = condition r) →
      t.findMany condition2 k = t.findMany condition k := by
  have hj : ((k.toNat : Nat) : Int) = k := Int.toNat_of_nonneg (by omega)
  have h0 : 0 < k.toNat := by omega
  have key : ∀ c : Row → Bool,
      t.findMany c k = (t._rows.filter c).take k.toNat := by
    intro c
    have h := findManyAux_pos c k.toNat t._rows [] (by simpa using h0)
    rw [hj] at h
    rw [Table.findMany, h]
    simp
  refine ⟨key condition, ?_, ?_⟩
  · rw [key condition]
    exact List.length_take_le k.toNat (t._rows.filter condition)
  · intro p s condition2 hps hlen hagree
    rw [key condition, key condition2, hps, List.filter_append, List.filter_append]
    have hfp : p.filter condition2 = p.filter condition := List.filter_congr hagree
    rw [hfp]
    have hflen : (p.filter condition).length = k.toNat := by omega
    rw [← hflen, List.take_left, List.take_left]

/-- Witness for C3: on the two-row table, `findMany` with limit `1`
returns the first match only. -/
theorem findMany_pos_spec_witness :
    tableTwoRows.findMany condTrue 1 =
      (tableTwoRows._rows.filter condTrue).take (Int.toNat 1) :=
  (findMany_pos_spec tableTwoRows condTrue 1 (by decide)).1

/-- C6: `Database.get` after `Database.create` returns exactly the table
`create` returned; creating under a different name does not disturb it;
`get` returns whatever table is stored under the name; and when the name
is absent `get` fails with `TableNotFoundError` carrying the requested
name. -/
theorem create_get_spec (db : Database) (n m : String) :
    Database.get (db.create n).2 n = Except.ok (db.create n).1 ∧
    (m ≠ n → Database.get (db.create n).2 m = db.get m) ∧
    (∀ t2, dictLookup n db._tables = some t2 → db.get n = Except.ok t2) ∧
    (dictLookup n db._tables = none →
      db.get n = Except.error (GetError.tableNotFound n)) := by
  refine ⟨?_, ?_, ?_, ?_⟩
  · simp [Database.create, Database.get, dictLookup_dictInsert_self]
  · intro hm
    simp [Database.create, Database.get, dictLookup_dictInsert_ne n m _ hm]
  · intro t2 h
    simp [Database.get, h]
  · intro h
    simp [Database.get, h]

/-- Witness for C6: concrete create/get round trips on the empty
database and the missing-table error for `orders`. -/
theorem create_get_spec_witness :
    Database.get (dbEmpty.create "users").2 "users" =
      Except.ok (dbEmpty.create "users").1 ∧
    Database.get (dbEmpty.create "users").2 "orders" = dbEmpty.get "orders" ∧
    dbUsers.get "users" = Except.ok (Table.mk "users" [] []) ∧
    dbEmpty.get "orders" = Except.error (GetError.tableNotFound "orders") :=
  ⟨(create_get_spec dbEmpty "users" "orders").1,
   (create_get_spec dbEmpty "users" "orders").2.1 (by decide),
   (create_get_spec dbUsers "users" "y").2.2.1 (Table.mk "users" [] []) rfl,
   (create_get_spec dbEmpty "orders" "y").2.2.2 rfl⟩

/-- C8: the by-name lookup used by `add_row`'s validation resolves to the
FIRST field entry carrying the name, silently shadowing every later
entry with the same name: any duplicates sitting in `post` are never
consulted, and the value is type-checked against the first entry's
declared type. -/
theorem lookupDataType_first_match (pre : List Field) (f : Field)
    (post : List Field) (n : String) (h1 : f.name = n)
    (h2 : ∀ g ∈ pre, g.name ≠ n) :
    lookupDataType (pre ++ f :: post) n = some f.data_type ∧
    ∀ v, validateKwargs (pre ++ f :: post) [(n, v)] =
      if pyIsInstance v f.data_type then Except.ok ()
      else Except.error (AddRowError.typeMismatch n) := by
  have hlook : lookupDataType (pre ++ f :: post) n = some f.data_type := by
    induction pre with
    | nil => simp [lookupDataType, h1]
    | cons g rest ih =>
      have hg : g.name ≠ n := h2 g (by simp)
      simp only [List.cons_append, lookupDataType, hg, if_neg]
      exact ih (fun g2 hg2 => h2 g2 (by simp [hg2]))
  refine ⟨hlook, ?_⟩
  intro v
  by_cases hins : pyIsInstance v f.data_type
  · simp [validateKwargs, hlook, hins]
  · simp [validateKwargs, hlook, hins]

/-- Witness for C8: with duplicate schema entries `a : int` then
`a : str`, the lookup of `a` yields `int`, and a string value for `a` is
rejected with the type-mismatch error even though it would match the
shadowed second entry. -/
theorem lookupDataType_first_match_witness :
    lookupDataType ([] ++ Field.mk "a" DType.int :: [Field.mk "a" DType.str]) "a" =
      some DType.int ∧
    validateKwargs ([] ++ Field.mk "a" DType.int :: [Field.mk "a" DType.str])
      [("a", Value.str "x")] = Except.error (AddRowError.typeMismatch "a") := by
  have h := lookupDataType_first_match [] (Field.mk "a" DType.int)
    [Field.mk "a" DType.str] "a" rfl (by simp)
  refine ⟨h.1, ?_⟩
  rw [h.2 (Value.str "x")]
  rfl

end DB
